import Mathlib

/-!
Verification of the spead2 receive path (stream core, UDP reader, memory
reader, bypass service and bypass reader) against its specification.

The stream core's method bodies (`stream_base::add_packet`, `flush`,
`resume`, `stop_received`) live in `recv_stream.cpp`, which is not part of
the source tree given here; only the header `recv_stream.h` (with the
definitions of `is_stopped`, `is_paused` and `stream::emplace_reader`) is.
Those missing bodies are modelled from the specification and marked as such
in their doc comments.  Everything else (`recv_bypass.cpp`, the UDP reader
in `recv_udp.cpp`, the memory reader in `recv_mem.cpp`) is translated
directly from the source.
-/

/-- Decoded SPEAD packet header, as exposed by `decode_packet`
(spec §6: `cnt`, `payload_offset`, `payload_length`, optional
`heap_length`, `is_heap_end`). -/
structure packet_header where
  heap_cnt : Int
  payload_offset : Nat
  payload_length : Nat
  heap_length : Option Nat
  is_heap_end : Bool
deriving DecidableEq, Repr

/-- Modelled from the spec: `live_heap` (declared in `recv_live_heap.h`,
absent from the given sources).  Spec §3: attributes `cnt`, declared heap
length (may be unknown), received payload length, set of received packet
offsets, and whether a heap-end marker was seen. -/
structure live_heap where
  cnt : Int
  heap_length : Option Nat
  received_length : Nat
  offsets : List Nat
  ended : Bool
deriving DecidableEq, Repr

/-- Modelled from the spec: a live heap created by the first packet bearing
its `cnt` (spec §3). -/
def live_heap.init (p : packet_header) : live_heap :=
  { cnt := p.heap_cnt
    heap_length := p.heap_length
    received_length := p.payload_length
    offsets := [p.payload_offset]
    ended := p.is_heap_end }

/-- Modelled from the spec: merging a later packet with the same `cnt` into
a live heap; duplicate packets (same `cnt`, same offset) are silently
dropped (spec §4.1, failure semantics). Returns whether the packet was
accepted together with the updated heap. -/
def live_heap.add_packet (h : live_heap) (p : packet_header) : Bool × live_heap :=
  if p.heap_cnt ≠ h.cnt then (false, h)
  else if h.offsets.contains p.payload_offset then (false, h)
  else (true,
    { h with
      heap_length := h.heap_length.orElse (fun _ => p.heap_length)
      received_length := h.received_length + p.payload_length
      offsets := h.offsets ++ [p.payload_offset]
      ended := h.ended || p.is_heap_end })

/-- Modelled from the spec: a heap is known complete when a heap length
header is present and all the corresponding payload has been received
(spec §3 / header comment in `recv_stream.h`). -/
def live_heap.is_complete (h : live_heap) : Bool :=
  h.heap_length == some h.received_length

/-- State of `stream_base` (`recv_stream.h`): a circular queue of live-heap
slots (a hole where the header stores heap cnt `-1`), the position `head`
of the most recently added heap, the `resume_heaps` deque of heaps that
could not be pushed downstream, and the `stopped` flag. -/
structure stream_base where
  slots : List (Option live_heap)
  head : Nat
  resume_heaps : List live_heap
  stopped : Bool
deriving DecidableEq, Repr

/-- Embeds `stream_base::is_stopped` (`recv_stream.h`): `return stopped;`. -/
def stream_base.is_stopped (s : stream_base) : Bool := s.stopped

/-- Embeds `stream_base::is_paused` (`recv_stream.h`):
`return !resume_heaps.empty();`. -/
def stream_base.is_paused (s : stream_base) : Bool := !s.resume_heaps.isEmpty

/-- Modelled from the spec: delivering a heap being ejected from the live
list through the virtual `heap_ready` hook (here the oracle `ready`).  If
`heap_ready` returns false the heap is placed on the resume queue and the
stream becomes paused (spec §4.1, `heap_ready` contract). -/
def stream_base.emit_heap (ready : live_heap → Bool) (h : live_heap)
    (s : stream_base) : stream_base :=
  if ready h then s
  else { s with resume_heaps := s.resume_heaps ++ [h] }

/-- Search of the live-heap table for a matching `cnt` (spec §3: lookup is
linear over the cnt array; holes never match). -/
def slot_matches (cnt : Int) : Option live_heap → Bool
  | some h => h.cnt == cnt
  | none => false

/-- Index of the slot holding the live heap with the given `cnt`, if any. -/
def stream_base.find_heap (s : stream_base) (cnt : Int) : Option Nat :=
  s.slots.findIdx? (slot_matches cnt)

/-- Modelled from the spec: `stream_base::add_packet` (body in the missing
`recv_stream.cpp`).  Spec §4.1 algorithm:
1. reject if stopped;
2. search the table for a matching `cnt` and merge if found;
3. otherwise evict the occupant of slot `(head+1) mod max_heaps` through
   `heap_ready` (a refusal pushes it onto the resume queue) and place a new
   live heap there, updating `head`;
4. after merging, if the heap is known complete or `is_heap_end` is set,
   evict it immediately by the same protocol. -/
def stream_base.add_packet (ready : live_heap → Bool) (p : packet_header)
    (s : stream_base) : Bool × stream_base :=
  if s.stopped then (false, s)
  else
    match s.find_heap p.heap_cnt with
    | some i =>
      match s.slots.get? i with
      | some (some h) =>
        let r := h.add_packet p
        if !r.1 then (false, s)
        else if r.2.is_complete || r.2.ended then
          (true, stream_base.emit_heap ready r.2 { s with slots := s.slots.set i none })
        else
          (true, { s with slots := s.slots.set i (some r.2) })
      | _ => (false, s)
    | none =>
      let tgt := (s.head + 1) % s.slots.length
      let s1 :=
        match s.slots.get? tgt with
        | some (some old) =>
          stream_base.emit_heap ready old { s with slots := s.slots.set tgt none }
        | _ => s
      let h0 := live_heap.init p
      if h0.is_complete || h0.ended then
        (true, stream_base.emit_heap ready h0 { s1 with head := tgt })
      else
        (true, { s1 with slots := s1.slots.set tgt (some h0), head := tgt })

/-- Modelled from the spec: the loop of `stream_base::resume` — re-deliver
every heap in the resume queue, in insertion order, stopping at the first
refusal (spec §4.1, `resume` contract). -/
def resume_go (ready : live_heap → Bool) : List live_heap → List live_heap
  | [] => []
  | h :: t => if ready h then resume_go ready t else h :: t

/-- Modelled from the spec: `stream_base::resume` (body in the missing
`recv_stream.cpp`). -/
def stream_base.resume (ready : live_heap → Bool) (s : stream_base) : stream_base :=
  { s with resume_heaps := resume_go ready s.resume_heaps }

/-- Modelled from the spec: the walk of `stream_base::flush` over `count`
slots starting at index `i`, emitting each non-hole via `heap_ready`
(refusals land on the resume queue) and clearing it (spec §4.1, flush). -/
def flush_go (ready : live_heap → Bool) :
    Nat → Nat → stream_base → stream_base
  | 0, _, s => s
  | k + 1, i, s =>
    let s2 :=
      match s.slots.get? i with
      | some (some h) =>
        stream_base.emit_heap ready h { s with slots := s.slots.set i none }
      | _ => s
    flush_go ready k ((i + 1) % s2.slots.length) s2

/-- Modelled from the spec: `stream_base::flush` — walk the slots in
`head+1, head+2, …` order (oldest first), emitting each non-hole via
`heap_ready` (spec §4.1, flush). -/
def stream_base.flush (ready : live_heap → Bool) (s : stream_base) : stream_base :=
  flush_go ready s.slots.length ((s.head + 1) % s.slots.length) s

/-- Modelled from the spec: `stream_base::stop_received` — mark the stream
stopped, then flush the live-heap table through `heap_ready` (spec §4.1;
the design note prescribes flush, not discard, for a network-initiated
stop). -/
def stream_base.stop_received (ready : live_heap → Bool) (s : stream_base) : stream_base :=
  stream_base.flush ready { s with stopped := true }

/-- Embeds `stream_base::discard_resume_heaps` (`recv_stream.h` documents it;
throws away the contents of `resume_heaps` without calling `resume`). -/
def stream_base.discard_resume_heaps (s : stream_base) : stream_base :=
  { s with resume_heaps := [] }

/-!
## UDP reader (`recv_udp.cpp`)

`udp_reader::process_one_packet`, `process_packets`, `resume_handler` and
`enqueue_receive`.  The effect of one datagram on the stream goes through
the out-of-scope `decode_packet`, whose result we take as input
(`decode_size`, with `0` meaning the decoder rejected the bytes).
-/

/-- Branch taken by `udp_reader::process_one_packet` for one datagram. -/
inductive udp_action where
  | accepted        -- `add_packet` was called
  | size_mismatch   -- "discarding packet due to size mismatch"
  | decode_failed   -- `decode_packet` returned 0
  | truncated       -- "dropped packet due to truncation"
  | ignored         -- zero-length datagram: no branch taken
deriving DecidableEq, Repr

/-- Embeds `udp_reader::process_one_packet` (`recv_udp.cpp`): accept the datagram
only if `0 < length ≤ max_size` and the decoded size equals the received
length, in which case `add_packet` is called; otherwise the datagram is
logged and dropped and the stream is left alone. -/
def process_one_packet (ready : live_heap → Bool) (p : packet_header)
    (max_size length decode_size : Nat) (s : stream_base) :
    udp_action × stream_base :=
  if length ≤ max_size ∧ 0 < length then
    if decode_size = length then
      (udp_action.accepted, (stream_base.add_packet ready p s).2)
    else if decode_size ≠ 0 then (udp_action.size_mismatch, s)
    else (udp_action.decode_failed, s)
  else if max_size < length then (udp_action.truncated, s)
  else (udp_action.ignored, s)

/-- Result of one call to `udp_reader::process_packets`: the stream state,
the updated backlog bounds `resume_first`/`resume_last`, and the (ghost)
trace of datagram indices that were handed to `process_one_packet`. -/
structure pp_out where
  s : stream_base
  first : Nat
  last : Nat
  processed : List Nat
deriving Repr

/-- The loop of `udp_reader::process_packets` (`recv_udp.cpp`,
`SPEAD2_USE_RECVMMSG` branch), with fuel equal to the number of remaining
iterations.  `eff i s` is the effect of `process_one_packet` on the stream
for the batch's datagram `i`:
while `resume_first < resume_last`: if the stream is stopped, discard the
rest (`resume_first = resume_last = 0`) and break; if it is paused, call
`pause()` and break (the backlog is kept); otherwise hand datagram
`resume_first` to `process_one_packet` and increment `resume_first`. -/
def process_packets_go (eff : Nat → stream_base → stream_base) :
    Nat → stream_base → Nat → Nat → pp_out
  | 0, s, first, last => ⟨s, first, last, []⟩
  | fuel + 1, s, first, last =>
    if last ≤ first then ⟨s, first, last, []⟩
    else if s.is_stopped then ⟨s, 0, 0, []⟩
    else if s.is_paused then ⟨s, first, last, []⟩
    else
      let o := process_packets_go eff fuel (eff first s) (first + 1) last
      ⟨o.s, o.first, o.last, first :: o.processed⟩

/-- Embeds `udp_reader::process_packets`: run the loop to completion (the fuel
`last - first` covers every remaining datagram of the batch). -/
def process_packets (eff : Nat → stream_base → stream_base)
    (s : stream_base) (first last : Nat) : pp_out :=
  process_packets_go eff (last - first) s first last

/-- Outcome of `udp_reader::enqueue_receive`. -/
inductive enqueue_outcome where
  | fulfilled  -- stream stopped: `stopped_promise.set_value()`
  | armed      -- `async_receive_from` issued
  | idle       -- reader paused: no receive armed
deriving DecidableEq, Repr

/-- Embeds `udp_reader::enqueue_receive` (`recv_udp.cpp`): if the stream is
stopped, fulfil the stopped promise; else if the reader is not paused,
arm an asynchronous receive.  (`is_paused()` here is the reader-side
flag set by `pause()`, whose defining draft is absent from the sources;
modelled from the spec's reader state machine, §4.3.) -/
def udp_enqueue_receive (s : stream_base) (reader_paused : Bool) : enqueue_outcome :=
  if s.is_stopped then enqueue_outcome.fulfilled
  else if reader_paused then enqueue_outcome.idle
  else enqueue_outcome.armed

/-!
## Bypass service and bypass reader (`recv_bypass.cpp`)
-/

/-- A raw Ethernet/IPv4/UDP frame as read by
`bypass_service::process_packet`, at the granularity of the `header`
struct it overlays on the data: the fields it inspects plus the total
frame length.  `ether_type` is the 16-bit value compared against
`htons(ETHERTYPE_IP)` (both sides in the same wire representation, written
`0x0800` here), `frag_off` the 16-bit value masked with `0x3f`, `daddr`
and `dest_port` the destination address and UDP port after `ntohl`/
`ntohs`. -/
structure bypass_frame where
  ether_type : Nat
  ihl_version : Nat
  protocol : Nat
  frag_off : Nat
  daddr : Nat
  dest_port : Nat
  length : Nat
deriving DecidableEq, Repr

/-- Embeds `sizeof(header)` in `bypass_service::process_packet`: 14 (ethernet)
+ 20 (IPv4, no options) + 8 (UDP) bytes. -/
def bypass_header_size : Nat := 42

/-- The registered readers of a bypass service: the `std::map` from
endpoint `(address, port)` to `bypass_reader*`, as an association list
(readers are named by numbers). -/
abbrev readers_map := List ((Nat × Nat) × Nat)

/-- The four header checks of `bypass_service::process_packet`
(`recv_bypass.cpp`): Ethertype `0x0800`, first IP-header byte `0x45`,
IP protocol `17` (UDP), and `frag_off & 0x3f == 0` (for naturals,
`x &&& 63 = x % 64`). -/
def bypass_frame.wanted (f : bypass_frame) : Prop :=
  f.ether_type = 0x0800 ∧ f.ihl_version = 0x45 ∧ f.protocol = 17 ∧
    f.frag_off % 64 = 0

instance (f : bypass_frame) : Decidable f.wanted := by
  unfold bypass_frame.wanted; infer_instance

/-- Embeds `bypass_service::process_packet` (`recv_bypass.cpp`): reject frames
shorter than the fixed header or failing the wanted checks; look the
destination endpoint up exactly, then fall back to the `(0.0.0.0, port)`
wildcard; deliver `(data + sizeof(header), length - sizeof(header))` to
the reader found.  Returns the reader and the delivered payload length on
consumption, `none` when the frame is left for the host stack. -/
def bypass_service.process_packet (m : readers_map) (f : bypass_frame) :
    Option (Nat × Nat) :=
  if f.length < bypass_header_size then none
  else if f.wanted then
    match List.lookup (f.daddr, f.dest_port) m with
    | some r => some (r, f.length - bypass_header_size)
    | none =>
      match List.lookup (0, f.dest_port) m with
      | some r => some (r, f.length - bypass_header_size)
      | none => none
  else none

/-- Errors raised (as `std::invalid_argument`) by the bypass service's
configuration entry points. -/
inductive bypass_error where
  | not_ipv4
  | already_registered
  | not_registered
  | unknown_type
deriving DecidableEq, Repr

/-- An endpoint as passed to `add_endpoint`: address family flag, address
and port. -/
structure endpoint where
  is_v4 : Bool
  addr : Nat
  port : Nat
deriving DecidableEq, Repr

/-- Reader registrations keyed by full endpoints, for the configuration
entry points. -/
abbrev ep_map := List (endpoint × Nat)

/-- Embeds `bypass_service::add_endpoint_strand` (`recv_bypass.cpp`):
`readers.emplace(endpoint, reader)` does not modify the map when the key
is already present, and the function then throws
`std::invalid_argument("endpoint is already registered")`. -/
def bypass_service.add_endpoint_strand (m : ep_map) (ep : endpoint) (r : Nat) :
    Option bypass_error × ep_map :=
  if (List.lookup ep m).isSome then (some bypass_error.already_registered, m)
  else (none, m ++ [(ep, r)])

/-- Embeds `bypass_service::add_endpoint` (`recv_bypass.cpp`): throw
`std::invalid_argument` when the address is not IPv4, before anything is
enqueued on the strand; otherwise run `add_endpoint_strand`. -/
def bypass_service.add_endpoint (m : ep_map) (ep : endpoint) (r : Nat) :
    Option bypass_error × ep_map :=
  if ep.is_v4 = false then (some bypass_error.not_ipv4, m)
  else bypass_service.add_endpoint_strand m ep r

/-- Embeds `bypass_service::get_instance` (`recv_bypass.cpp`): look the
technology name up in the `types` table and throw
`std::invalid_argument("bypass type ... not implemented")` when it is
absent. -/
def bypass_service.get_instance (types_table : List String) (t : String) :
    Option bypass_error :=
  if types_table.contains t then none else some bypass_error.unknown_type

/-- Branch taken by `bypass_reader::process_packet` for one packet. -/
inductive bypass_action where
  | delivered          -- `add_packet` was called
  | dropped_after_stop -- "dropping packet received after end of stream"
  | discarded_paused   -- "discarding packet because the stream is paused"
  | size_mismatch      -- "discarding packet due to size mismatch"
  | ignored            -- `decode_packet` returned 0: no branch taken
deriving DecidableEq, Repr

/-- Embeds `bypass_reader::process_packet` (`recv_bypass.cpp`): decode, and if the
decoded size matches the length, under the stream mutex: drop the packet
when the stream is stopped, discard it when the stream is paused, and only
otherwise call `add_packet`. -/
def bypass_reader.process_packet (ready : live_heap → Bool) (p : packet_header)
    (length decode_size : Nat) (s : stream_base) : bypass_action × stream_base :=
  if decode_size = length then
    if s.is_stopped then (bypass_action.dropped_after_stop, s)
    else if s.is_paused then (bypass_action.discarded_paused, s)
    else (bypass_action.delivered, (stream_base.add_packet ready p s).2)
  else if decode_size ≠ 0 then (bypass_action.size_mismatch, s)
  else (bypass_action.ignored, s)

/-!
## Memory reader (`recv_mem.cpp`, the `state_change`/`update_state` draft)
-/

/-- Reader states (spec §3 / `recv_mem.h` draft `state_t`). -/
inductive reader_state where
  | RUNNING
  | PAUSED
  | STOPPED
deriving DecidableEq, Repr

/-- State of a `mem_reader`: remaining buffer length, state-machine state,
whether `stopped_promise` has been fulfilled, and a ghost flag recording
that a `run()` task was posted on the io_service. -/
structure mem_reader where
  length : Nat
  state : reader_state
  promise_set : Bool
  posted : Bool
deriving DecidableEq, Repr

/-- Embeds `mem_reader::update_state` (`recv_mem.cpp`): if the stream is stopped,
transition to STOPPED (once) and fulfil the stopped promise; else if the
stream is paused, go PAUSED; else go RUNNING and post `run()`. -/
def mem_reader.update_state (s : stream_base) (r : mem_reader) : mem_reader :=
  if s.is_stopped then
    if r.state ≠ reader_state.STOPPED then
      { r with state := reader_state.STOPPED, promise_set := true }
    else r
  else if s.is_paused then { r with state := reader_state.PAUSED }
  else { r with state := reader_state.RUNNING, posted := true }

/-- Modelled from the spec: the reader-side `pause()` helper (its defining
draft of the reader base class is absent from the sources); per the reader
state machine (spec §4.3) it records the PAUSED state. -/
def mem_reader.pause (r : mem_reader) : mem_reader :=
  { r with state := reader_state.PAUSED }

/-- Embeds `mem_reader::run` (`recv_mem.cpp`), starting right after the
`mem_to_stream` call: `s1` is the stream state and `l1` the remaining
buffer length that `mem_to_stream` produced.  The code then calls
`update_state()`; if the stream is not stopped it calls `pause()` when the
stream is paused, or `stop_received()` when the buffer is exhausted
(`length == 0`); and ends with a second `update_state()`. -/
def mem_reader.run (ready : live_heap → Bool) (s1 : stream_base) (l1 : Nat)
    (r : mem_reader) : stream_base × mem_reader :=
  let r1 := mem_reader.update_state s1 { r with length := l1 }
  let sr :=
    if s1.is_stopped = false then
      if s1.is_paused then (s1, mem_reader.pause r1)
      else if l1 = 0 then (stream_base.stop_received ready s1, r1)
      else (s1, r1)
    else (s1, r1)
  (sr.1, mem_reader.update_state sr.1 sr.2)

/-!
## `stream::emplace_reader` (`recv_stream.h`)
-/

/-- The `stream` subclass state that `emplace_reader` touches: the
`stream_base` part and the `readers` vector (readers named by numbers). -/
structure stream_outer where
  base : stream_base
  readers : List Nat
deriving DecidableEq, Repr

/-- Embeds `stream::emplace_reader` (`recv_stream.h`): under the mutex, if the
stream is not stopped, construct the reader, push it onto `readers`, and
(after unlocking) wait on its `start()` future.  The returned flag records
whether a reader was constructed and its start future awaited; when the
stream has stopped nothing happens and the call returns normally. -/
def stream.emplace_reader (s : stream_outer) (new_reader : Nat) :
    stream_outer × Bool :=
  if s.base.is_stopped = false then
    ({ s with readers := s.readers ++ [new_reader] }, true)
  else (s, false)

/-!
## Theorems
-/

lemma is_paused_iff_resume_ne_nil (s : stream_base) :
    s.is_paused = true ↔ s.resume_heaps ≠ [] := by
  unfold stream_base.is_paused
  cases s.resume_heaps <;> simp

lemma emit_heap_refused (ready : live_heap → Bool) (h : live_heap)
    (s : stream_base) :
    ∃ l, (stream_base.emit_heap ready h s).resume_heaps = s.resume_heaps ++ l ∧
      ∀ x ∈ l, ready x = false := by
  unfold stream_base.emit_heap
  by_cases hr : ready h = true
  · exact ⟨[], by simp [hr]⟩
  · refine ⟨[h], by simp [hr], ?_⟩
    intro x hx
    simp only [List.mem_singleton] at hx
    subst hx
    simpa using hr

lemma add_packet_resume_refused (ready : live_heap → Bool) (p : packet_header)
    (s : stream_base) :
    ∃ l, (stream_base.add_packet ready p s).2.resume_heaps = s.resume_heaps ++ l ∧
      ∀ x ∈ l, ready x = false := by
  unfold stream_base.add_packet
  split
  · exact ⟨[], by simp⟩
  · split
    · split
      · dsimp only
        split
        · exact ⟨[], by simp⟩
        · split
          · exact emit_heap_refused ready _ _
          · exact ⟨[], by simp⟩
      · exact ⟨[], by simp⟩
    · dsimp only
      rcases hsl : s.slots.get? ((s.head + 1) % s.slots.length) with _ | ho
      · simp only [hsl]
        split
        · exact emit_heap_refused ready _ _
        · exact ⟨[], by simp⟩
      · rcases ho with _ | old
        · simp only [hsl]
          split
          · exact emit_heap_refused ready _ _
          · exact ⟨[], by simp⟩
        · simp only [hsl]
          split
          · refine ⟨(if ready old then [] else [old]) ++
              (if ready (live_heap.init p) then [] else [live_heap.init p]), ?_, ?_⟩
            · simp only [stream_base.emit_heap]
              split <;> split <;> simp
            · intro x hx
              rcases List.mem_append.mp hx with hx | hx <;>
                [skip; skip] <;> split at hx <;> simp_all
          · refine ⟨if ready old then [] else [old], ?_, ?_⟩
            · simp only [stream_base.emit_heap]
              split <;> simp
            · intro x hx
              split at hx <;> simp_all

/-- C1: at every point, the stream is paused exactly when the resume queue
`resume_heaps` is non-empty — `is_paused()` returns `!resume_heaps.empty()`
— and each of `add_packet`, a `heap_ready` refusal (`emit_heap`), `resume`,
`flush` and `stop_received` preserves this equivalence; moreover
`add_packet` only ever appends heaps that `heap_ready` refused. -/
theorem C1_paused_iff_resume_nonempty (ready : live_heap → Bool)
    (p : packet_header) (h : live_heap) (s : stream_base) :
    (s.is_paused = true ↔ s.resume_heaps ≠ []) ∧
    ((stream_base.add_packet ready p s).2.is_paused = true ↔
      (stream_base.add_packet ready p s).2.resume_heaps ≠ []) ∧
    ((stream_base.emit_heap ready h s).is_paused = true ↔
      (stream_base.emit_heap ready h s).resume_heaps ≠ []) ∧
    ((stream_base.resume ready s).is_paused = true ↔
      (stream_base.resume ready s).resume_heaps ≠ []) ∧
    ((stream_base.flush ready s).is_paused = true ↔
      (stream_base.flush ready s).resume_heaps ≠ []) ∧
    ((stream_base.stop_received ready s).is_paused = true ↔
      (stream_base.stop_received ready s).resume_heaps ≠ []) ∧
    (∃ l, (stream_base.add_packet ready p s).2.resume_heaps = s.resume_heaps ++ l ∧
      ∀ x ∈ l, ready x = false) :=
  ⟨is_paused_iff_resume_ne_nil s,
   is_paused_iff_resume_ne_nil _,
   is_paused_iff_resume_ne_nil _,
   is_paused_iff_resume_ne_nil _,
   is_paused_iff_resume_ne_nil _,
   is_paused_iff_resume_ne_nil _,
   add_packet_resume_refused ready p s⟩

/-- C2: if the stream has already been stopped, `add_packet` returns
`false` and leaves the entire stream state — in particular the live-heap
table and the resume queue — unchanged. -/
theorem C2_add_packet_rejected_when_stopped (ready : live_heap → Bool)
    (p : packet_header) (s : stream_base) (hs : s.is_stopped = true) :
    stream_base.add_packet ready p s = (false, s) := by
  unfold stream_base.is_stopped at hs
  unfold stream_base.add_packet
  simp [hs]

/-- Witness for C2 at a concrete stopped stream. -/
theorem C2_witness :
    (stream_base.mk [none] 0 [] true).is_stopped = true ∧
    stream_base.add_packet (fun _ => true)
      (packet_header.mk 3 0 8 (some 8) false)
      (stream_base.mk [none] 0 [] true) =
      (false, stream_base.mk [none] 0 [] true) :=
  ⟨rfl, C2_add_packet_rejected_when_stopped (fun _ => true)
    (packet_header.mk 3 0 8 (some 8) false)
    (stream_base.mk [none] 0 [] true) rfl⟩

/-- C3: `bypass_service::process_packet` consumes a frame (returning the
reader it delivers the UDP payload to) only if the frame has Ethertype
`0x0800`, first IP-header byte `0x45`, IP protocol `17` and
`frag_off & 0x3f == 0`; every frame failing any of these checks is
delivered to no reader and the function returns false (here `none`), so
the frame goes back to the host stack. -/
theorem C3_process_packet_checks (m : readers_map) (f : bypass_frame) :
    ((bypass_service.process_packet m f).isSome = true →
      f.ether_type = 0x0800 ∧ f.ihl_version = 0x45 ∧ f.protocol = 17 ∧
        f.frag_off % 64 = 0) ∧
    (¬ (f.ether_type = 0x0800 ∧ f.ihl_version = 0x45 ∧ f.protocol = 17 ∧
        f.frag_off % 64 = 0) →
      bypass_service.process_packet m f = none) := by
  constructor
  · intro hs
    unfold bypass_service.process_packet at hs
    split at hs
    · simp at hs
    · split at hs
      · next hw => exact hw
      · simp at hs
  · intro hw
    unfold bypass_service.process_packet
    split
    · rfl
    · split
      · next hw2 => exact absurd hw2 hw
      · rfl

/-- Witness for C3: a frame with IP options (`ihl_version = 0x46`) is
rejected even though a wildcard reader is registered on its port. -/
theorem C3_witness :
    ¬ ((bypass_frame.mk 0x0800 0x46 17 0 0x01020304 9000 100).ether_type = 0x0800 ∧
       (bypass_frame.mk 0x0800 0x46 17 0 0x01020304 9000 100).ihl_version = 0x45 ∧
       (bypass_frame.mk 0x0800 0x46 17 0 0x01020304 9000 100).protocol = 17 ∧
       (bypass_frame.mk 0x0800 0x46 17 0 0x01020304 9000 100).frag_off % 64 = 0) ∧
    bypass_service.process_packet [((0, 9000), 1)]
      (bypass_frame.mk 0x0800 0x46 17 0 0x01020304 9000 100) = none :=
  ⟨by decide,
   (C3_process_packet_checks [((0, 9000), 1)]
     (bypass_frame.mk 0x0800 0x46 17 0 0x01020304 9000 100)).2 (by decide)⟩

/-- C4: for an accepted frame, `bypass_service::process_packet` dispatches
to the reader registered for the exact `(address, port)` endpoint when one
exists; only when the exact lookup fails does it fall back to the
`(0.0.0.0, port)` wildcard; when neither is registered the frame is left
unconsumed. -/
theorem C4_dispatch_exact_then_wildcard (m : readers_map) (f : bypass_frame)
    (hlen : bypass_header_size ≤ f.length)
    (hw : f.ether_type = 0x0800 ∧ f.ihl_version = 0x45 ∧ f.protocol = 17 ∧
      f.frag_off % 64 = 0) :
    (∀ r, List.lookup (f.daddr, f.dest_port) m = some r →
      bypass_service.process_packet m f =
        some (r, f.length - bypass_header_size)) ∧
    (List.lookup (f.daddr, f.dest_port) m = none →
      (∀ r, List.lookup (0, f.dest_port) m = some r →
        bypass_service.process_packet m f =
          some (r, f.length - bypass_header_size)) ∧
      (List.lookup (0, f.dest_port) m = none →
        bypass_service.process_packet m f = none)) := by
  have hnl : ¬ f.length < bypass_header_size := Nat.not_lt.mpr hlen
  have hw' : f.wanted := hw
  refine ⟨?_, fun hnone => ⟨?_, ?_⟩⟩
  · intro r hr
    unfold bypass_service.process_packet
    simp [hnl, hw', hr]
  · intro r hr
    unfold bypass_service.process_packet
    simp [hnl, hw', ‹List.lookup (f.daddr, f.dest_port) m = none›, hr]
  · intro h2
    unfold bypass_service.process_packet
    simp [hnl, hw', ‹List.lookup (f.daddr, f.dest_port) m = none›, h2]

/-- Witness for C4 (spec scenario 5): with readers on `1.2.3.4:9000` and
the wildcard `0.0.0.0:9000`, a frame to `1.2.3.4:9000` goes only to the
first and a frame to `1.2.3.5:9000` goes to the wildcard reader. -/
theorem C4_witness :
    bypass_service.process_packet [((0x01020304, 9000), 1), ((0, 9000), 2)]
      (bypass_frame.mk 0x0800 0x45 17 0 0x01020304 9000 60) = some (1, 18) ∧
    bypass_service.process_packet [((0x01020304, 9000), 1), ((0, 9000), 2)]
      (bypass_frame.mk 0x0800 0x45 17 0 0x01020305 9000 60) = some (2, 18) :=
  ⟨(C4_dispatch_exact_then_wildcard [((0x01020304, 9000), 1), ((0, 9000), 2)]
      (bypass_frame.mk 0x0800 0x45 17 0 0x01020304 9000 60)
      (by decide) (by decide)).1 1 (by decide),
   ((C4_dispatch_exact_then_wildcard [((0x01020304, 9000), 1), ((0, 9000), 2)]
      (bypass_frame.mk 0x0800 0x45 17 0 0x01020305 9000 60)
      (by decide) (by decide)).2 (by decide)).1 2 (by decide)⟩

/-- C8: configuration errors raise `std::invalid_argument` and leave the
reader map unchanged — `add_endpoint` for a non-IPv4 endpoint (thrown
before anything reaches the strand), `add_endpoint_strand` for an
endpoint that is already registered (`std::map::emplace` does not touch
the map when the key exists), and `get_instance` for a technology name
absent from the supported-types table. -/
theorem C8_config_errors (m : ep_map) (ep : endpoint) (r : Nat)
    (tt : List String) (t : String) :
    (ep.is_v4 = false →
      bypass_service.add_endpoint m ep r = (some bypass_error.not_ipv4, m)) ∧
    (ep.is_v4 = true → (List.lookup ep m).isSome = true →
      bypass_service.add_endpoint m ep r =
        (some bypass_error.already_registered, m)) ∧
    (tt.contains t = false →
      bypass_service.get_instance tt t = some bypass_error.unknown_type) := by
  refine ⟨?_, ?_, ?_⟩
  · intro h4
    unfold bypass_service.add_endpoint
    simp [h4]
  · intro h4 hdup
    unfold bypass_service.add_endpoint bypass_service.add_endpoint_strand
    simp [h4, hdup]
  · intro ht
    unfold bypass_service.get_instance
    simp only [ht, Bool.false_eq_true, if_false]

/-- Witness for C8: an IPv6 endpoint, a duplicate registration of an IPv4
endpoint, and an unsupported technology name each fail, leaving the map
as it was. -/
theorem C8_witness :
    bypass_service.add_endpoint [] (endpoint.mk false 1 9000) 1 =
      (some bypass_error.not_ipv4, []) ∧
    bypass_service.add_endpoint [(endpoint.mk true 5 9000, 1)]
      (endpoint.mk true 5 9000) 2 =
      (some bypass_error.already_registered, [(endpoint.mk true 5 9000, 1)]) ∧
    bypass_service.get_instance ["netmap"] "pcap" =
      some bypass_error.unknown_type :=
  ⟨(C8_config_errors [] (endpoint.mk false 1 9000) 1 ["netmap"] "pcap").1 rfl,
   (C8_config_errors [(endpoint.mk true 5 9000, 1)] (endpoint.mk true 5 9000) 2
     ["netmap"] "pcap").2.1 rfl (by decide),
   (C8_config_errors [] (endpoint.mk false 1 9000) 1 ["netmap"] "pcap").2.2
     (by decide)⟩

/-- C6 counterexample: in `bypass_reader::process_packet` a well-formed
packet (decoded size 8 = length 8) arriving while the stream is paused but
not stopped is discarded on the spot ("discarding packet because the
stream is paused") — it is not pushed into any backlog (the reader has
none) and `add_packet` is never called for it, refuting the claim that
only a stopped stream drops packets. -/
theorem C6_counterexample :
    (stream_base.mk [none] 0 [live_heap.mk 5 (some 16) 8 [0] false] false).is_stopped
        = false ∧
    (stream_base.mk [none] 0 [live_heap.mk 5 (some 16) 8 [0] false] false).is_paused
        = true ∧
    bypass_reader.process_packet (fun _ => true)
      (packet_header.mk 6 0 8 (some 8) false) 8 8
      (stream_base.mk [none] 0 [live_heap.mk 5 (some 16) 8 [0] false] false) =
      (bypass_action.discarded_paused,
       stream_base.mk [none] 0 [live_heap.mk 5 (some 16) 8 [0] false] false) := by
  refine ⟨rfl, rfl, ?_⟩
  unfold bypass_reader.process_packet
  simp [stream_base.is_stopped, stream_base.is_paused]

/-- C6 as amended: `bypass_reader::process_packet` drops the packet when
the stream is stopped, *discards* it (rather than backlogging it) when the
stream is paused, and calls `add_packet` only when the stream is neither
stopped nor paused. -/
theorem C6_amended_pause_discards (ready : live_heap → Bool)
    (p : packet_header) (length decode_size : Nat) (s : stream_base)
    (hsz : decode_size = length) :
    (s.is_stopped = true →
      bypass_reader.process_packet ready p length decode_size s =
        (bypass_action.dropped_after_stop, s)) ∧
    (s.is_stopped = false → s.is_paused = true →
      bypass_reader.process_packet ready p length decode_size s =
        (bypass_action.discarded_paused, s)) ∧
    (s.is_stopped = false → s.is_paused = false →
      bypass_reader.process_packet ready p length decode_size s =
        (bypass_action.delivered, (stream_base.add_packet ready p s).2)) := by
  refine ⟨?_, ?_, ?_⟩ <;> intro h1 <;>
    first
      | (intro h2
         unfold bypass_reader.process_packet
         simp [hsz, h1, h2])
      | (unfold bypass_reader.process_packet
         simp [hsz, h1])

/-- Witness for the amended C6 at a concrete paused stream. -/
theorem C6_amended_witness :
    bypass_reader.process_packet (fun _ => false)
      (packet_header.mk 7 0 4 (some 4) false) 4 4
      (stream_base.mk [none] 0 [live_heap.mk 9 none 4 [0] true] false) =
      (bypass_action.discarded_paused,
       stream_base.mk [none] 0 [live_heap.mk 9 none 4 [0] true] false) :=
  (C6_amended_pause_discards (fun _ => false)
    (packet_header.mk 7 0 4 (some 4) false) 4 4
    (stream_base.mk [none] 0 [live_heap.mk 9 none 4 [0] true] false)
    rfl).2.1 rfl rfl

/-- C7: a datagram that is longer than `max_size`, or that `decode_packet`
rejects (size 0), or whose decoded size disagrees with the received
length, never reaches `add_packet` and leaves the stream untouched; and
since the stream is untouched, `enqueue_receive` still re-arms the
receive whenever the stream is not stopped (and the reader not paused),
so one bad datagram never stops the reader. -/
theorem C7_bad_datagram_harmless (ready : live_heap → Bool)
    (p : packet_header) (max_size length decode_size : Nat) (s : stream_base)
    (hbad : max_size < length ∨ decode_size = 0 ∨ decode_size ≠ length) :
    (process_one_packet ready p max_size length decode_size s).1 ≠
      udp_action.accepted ∧
    (process_one_packet ready p max_size length decode_size s).2 = s ∧
    (s.is_stopped = false →
      udp_enqueue_receive
        (process_one_packet ready p max_size length decode_size s).2 false =
        enqueue_outcome.armed) := by
  have key : (process_one_packet ready p max_size length decode_size s).1 ≠
      udp_action.accepted ∧
      (process_one_packet ready p max_size length decode_size s).2 = s := by
    unfold process_one_packet
    rcases hbad with h | h | h
    · have hc : ¬ (length ≤ max_size ∧ 0 < length) := fun hx =>
        absurd hx.1 (Nat.not_le.mpr h)
      rw [if_neg hc, if_pos h]
      exact ⟨by simp, rfl⟩
    · subst h
      split_ifs with h1 h2 h3 <;>
        first
          | exact ⟨by simp, rfl⟩
          | simp_all
    · split_ifs with h1 h2 h3 <;> exact ⟨by simp, rfl⟩
  refine ⟨key.1, key.2, ?_⟩
  intro hrun
  rw [key.2]
  unfold udp_enqueue_receive
  simp [hrun]

/-- Witness for C7: a 10-byte datagram against `max_size = 8` is dropped
as truncated, the stream is untouched, and the receive is re-armed. -/
theorem C7_witness :
    (process_one_packet (fun _ => true) (packet_header.mk 1 0 4 (some 4) false)
      8 10 10 (stream_base.mk [none] 0 [] false)).1 ≠ udp_action.accepted ∧
    (process_one_packet (fun _ => true) (packet_header.mk 1 0 4 (some 4) false)
      8 10 10 (stream_base.mk [none] 0 [] false)).2 =
      stream_base.mk [none] 0 [] false ∧
    udp_enqueue_receive
      (process_one_packet (fun _ => true) (packet_header.mk 1 0 4 (some 4) false)
        8 10 10 (stream_base.mk [none] 0 [] false)).2 false =
      enqueue_outcome.armed :=
  ⟨(C7_bad_datagram_harmless (fun _ => true) (packet_header.mk 1 0 4 (some 4) false)
      8 10 10 (stream_base.mk [none] 0 [] false) (Or.inl (by decide))).1,
   (C7_bad_datagram_harmless (fun _ => true) (packet_header.mk 1 0 4 (some 4) false)
      8 10 10 (stream_base.mk [none] 0 [] false) (Or.inl (by decide))).2.1,
   (C7_bad_datagram_harmless (fun _ => true) (packet_header.mk 1 0 4 (some 4) false)
      8 10 10 (stream_base.mk [none] 0 [] false) (Or.inl (by decide))).2.2 rfl⟩

lemma emit_heap_stopped (ready : live_heap → Bool) (h : live_heap)
    (s : stream_base) :
    (stream_base.emit_heap ready h s).stopped = s.stopped := by
  unfold stream_base.emit_heap
  split <;> rfl

lemma flush_go_stopped (ready : live_heap → Bool) :
    ∀ (k i : Nat) (s : stream_base),
      (flush_go ready k i s).stopped = s.stopped := by
  intro k
  induction k with
  | zero => intro i s; rfl
  | succ k ih =>
    intro i s
    unfold flush_go
    dsimp only
    rcases hsl : s.slots.get? i with _ | ho
    · simp only [hsl]
      exact ih _ _
    · rcases ho with _ | hh
      · simp only [hsl]
        exact ih _ _
      · simp only [hsl]
        rw [ih _ _, emit_heap_stopped]

lemma stop_received_stopped (ready : live_heap → Bool) (s : stream_base) :
    (stream_base.stop_received ready s).stopped = true := by
  unfold stream_base.stop_received stream_base.flush
  rw [flush_go_stopped]

/-- C9: when `mem_to_stream` has consumed the whole buffer (remaining
length 0) and the stream is neither stopped nor paused, `mem_reader::run`
calls `stop_received` on the stream (which marks it stopped), transitions
the reader to STOPPED and fulfils the stopped promise, so `join` (which
waits on that promise) returns. -/
theorem C9_mem_reader_stops_on_exhaustion (ready : live_heap → Bool)
    (s1 : stream_base) (r : mem_reader)
    (hs : s1.is_stopped = false) (hp : s1.is_paused = false) :
    (mem_reader.run ready s1 0 r).1 = stream_base.stop_received ready s1 ∧
    (mem_reader.run ready s1 0 r).1.is_stopped = true ∧
    (mem_reader.run ready s1 0 r).2.state = reader_state.STOPPED ∧
    (mem_reader.run ready s1 0 r).2.promise_set = true := by
  have hstop : (stream_base.stop_received ready s1).is_stopped = true := by
    unfold stream_base.is_stopped
    exact stop_received_stopped ready s1
  have hrun : mem_reader.run ready s1 0 r =
      (stream_base.stop_received ready s1,
       mem_reader.update_state (stream_base.stop_received ready s1)
         (mem_reader.update_state s1 { r with length := 0 })) := by
    unfold mem_reader.run
    simp [hs, hp]
  have hr1 : (mem_reader.update_state s1 { r with length := 0 }).state =
      reader_state.RUNNING := by
    unfold mem_reader.update_state
    simp [hs, hp]
  refine ⟨by rw [hrun], by rw [hrun]; exact hstop, ?_, ?_⟩ <;>
    · rw [hrun]
      generalize hgen : mem_reader.update_state s1 { r with length := 0 } = r2 at hr1
      unfold mem_reader.update_state
      simp [hstop, hr1]

/-- Witness for C9 at a concrete running stream with an exhausted
buffer. -/
theorem C9_witness :
    (mem_reader.run (fun _ => true) (stream_base.mk [none] 0 [] false) 0
      (mem_reader.mk 0 reader_state.RUNNING false false)).2.state =
      reader_state.STOPPED ∧
    (mem_reader.run (fun _ => true) (stream_base.mk [none] 0 [] false) 0
      (mem_reader.mk 0 reader_state.RUNNING false false)).2.promise_set =
      true ∧
    (mem_reader.run (fun _ => true) (stream_base.mk [none] 0 [] false) 0
      (mem_reader.mk 0 reader_state.RUNNING false false)).1.is_stopped =
      true :=
  ⟨(C9_mem_reader_stops_on_exhaustion (fun _ => true)
      (stream_base.mk [none] 0 [] false)
      (mem_reader.mk 0 reader_state.RUNNING false false) rfl rfl).2.2.1,
   (C9_mem_reader_stops_on_exhaustion (fun _ => true)
      (stream_base.mk [none] 0 [] false)
      (mem_reader.mk 0 reader_state.RUNNING false false) rfl rfl).2.2.2,
   (C9_mem_reader_stops_on_exhaustion (fun _ => true)
      (stream_base.mk [none] 0 [] false)
      (mem_reader.mk 0 reader_state.RUNNING false false) rfl rfl).2.1⟩

/-- C10: calling `stream::emplace_reader` after the stream has stopped is
a no-op — no reader is constructed, the `readers` vector is untouched, no
`start()` future is awaited, and the call returns normally. -/
theorem C10_emplace_reader_noop_after_stop (s : stream_outer) (n : Nat)
    (hs : s.base.is_stopped = true) :
    stream.emplace_reader s n = (s, false) := by
  unfold stream.emplace_reader
  simp [hs]

/-- Witness for C10 on a concrete stopped stream with one registered
reader. -/
theorem C10_witness :
    stream.emplace_reader
      (stream_outer.mk (stream_base.mk [none] 0 [] true) [7]) 8 =
      (stream_outer.mk (stream_base.mk [none] 0 [] true) [7], false) :=
  C10_emplace_reader_noop_after_stop
    (stream_outer.mk (stream_base.mk [none] 0 [] true) [7]) 8 rfl

lemma pp_go_zero (eff : Nat → stream_base → stream_base) (s : stream_base)
    (first last : Nat) :
    process_packets_go eff 0 s first last = ⟨s, first, last, []⟩ := rfl

lemma pp_go_done (eff : Nat → stream_base → stream_base) (fuel : Nat)
    (s : stream_base) (first last : Nat) (h : last ≤ first) :
    process_packets_go eff (fuel + 1) s first last = ⟨s, first, last, []⟩ := by
  unfold process_packets_go
  simp [h]

lemma pp_go_stop (eff : Nat → stream_base → stream_base) (fuel : Nat)
    (s : stream_base) (first last : Nat) (h : ¬ last ≤ first)
    (hs : s.is_stopped = true) :
    process_packets_go eff (fuel + 1) s first last = ⟨s, 0, 0, []⟩ := by
  unfold process_packets_go
  simp [h, hs]

lemma pp_go_pause (eff : Nat → stream_base → stream_base) (fuel : Nat)
    (s : stream_base) (first last : Nat) (h : ¬ last ≤ first)
    (hs : s.is_stopped = false) (hp : s.is_paused = true) :
    process_packets_go eff (fuel + 1) s first last = ⟨s, first, last, []⟩ := by
  unfold process_packets_go
  simp [h, hs, hp]

lemma pp_go_step (eff : Nat → stream_base → stream_base) (fuel : Nat)
    (s : stream_base) (first last : Nat) (h : ¬ last ≤ first)
    (hs : s.is_stopped = false) (hp : s.is_paused = false) :
    process_packets_go eff (fuel + 1) s first last =
      ⟨(process_packets_go eff fuel (eff first s) (first + 1) last).s,
       (process_packets_go eff fuel (eff first s) (first + 1) last).first,
       (process_packets_go eff fuel (eff first s) (first + 1) last).last,
       first :: (process_packets_go eff fuel (eff first s) (first + 1) last).processed⟩ := by
  conv_lhs => rw [process_packets_go]
  simp [h, hs, hp]

lemma pp_go_spec (eff : Nat → stream_base → stream_base) :
    ∀ (fuel : Nat) (s : stream_base) (first last : Nat),
      first ≤ last → last ≤ first + fuel →
      ∃ k, (process_packets_go eff fuel s first last).processed = List.range' first k ∧
        first + k ≤ last ∧
        (((process_packets_go eff fuel s first last).first = first + k ∧
          (process_packets_go eff fuel s first last).last = last) ∨
         ((process_packets_go eff fuel s first last).first = 0 ∧
          (process_packets_go eff fuel s first last).last = 0 ∧
          (process_packets_go eff fuel s first last).s.is_stopped = true)) ∧
        ((process_packets_go eff fuel s first last).first <
            (process_packets_go eff fuel s first last).last →
          (process_packets_go eff fuel s first last).s.is_paused = true) := by
  intro fuel
  induction fuel with
  | zero =>
    intro s first last h1 h2
    rw [pp_go_zero]
    refine ⟨0, by simp, by omega, Or.inl ⟨by simp, rfl⟩, ?_⟩
    intro hlt
    exact absurd hlt (by simp; omega)
  | succ fuel ih =>
    intro s first last h1 h2
    by_cases hle : last ≤ first
    · rw [pp_go_done eff fuel s first last hle]
      refine ⟨0, by simp, by omega, Or.inl ⟨by simp, rfl⟩, ?_⟩
      intro hlt
      exact absurd hlt (by simp; omega)
    · rcases hstop : s.is_stopped with _ | _
      · rcases hpause : s.is_paused with _ | _
        · rw [pp_go_step eff fuel s first last hle hstop hpause]
          obtain ⟨k, hk, hbound, hout, hpau⟩ :=
            ih (eff first s) (first + 1) last (by omega) (by omega)
          dsimp only
          refine ⟨k + 1, ?_, by omega, ?_, hpau⟩
          · rw [hk, List.range'_succ]
          · rcases hout with ⟨hf, hl⟩ | hst
            · exact Or.inl ⟨by omega, hl⟩
            · exact Or.inr hst
        · rw [pp_go_pause eff fuel s first last hle hstop hpause]
          refine ⟨0, by simp, by omega, Or.inl ⟨by simp, rfl⟩, fun _ => hpause⟩
      · rw [pp_go_stop eff fuel s first last hle hstop]
        exact ⟨0, by simp, by omega, Or.inr ⟨rfl, rfl, hstop⟩, by simp⟩

lemma process_packets_spec (eff : Nat → stream_base → stream_base)
    (s : stream_base) (first last : Nat) (h : first ≤ last) :
    ∃ k, (process_packets eff s first last).processed = List.range' first k ∧
      first + k ≤ last ∧
      (((process_packets eff s first last).first = first + k ∧
        (process_packets eff s first last).last = last) ∨
       ((process_packets eff s first last).first = 0 ∧
        (process_packets eff s first last).last = 0 ∧
        (process_packets eff s first last).s.is_stopped = true)) ∧
      ((process_packets eff s first last).first <
          (process_packets eff s first last).last →
        (process_packets eff s first last).s.is_paused = true) := by
  unfold process_packets
  exact pp_go_spec eff (last - first) s first last h (by omega)

/-- C5: during one `process_packets` call over the batch
`[first, last)`, datagrams are handed to `process_one_packet` one by one
in their original order (`range' first k1`).  Either the call finishes or
is interrupted: if it stops early with backlog left
(`resume_first < resume_last`), the stream was paused and the backlog
`[first + k1, last)` is preserved exactly; the only way datagrams are
thrown away (`resume_first = resume_last = 0` with items unprocessed) is
the stream being stopped.  After a pause, the resumed call
(`resume_handler` runs `process_packets` again, from `s2`) continues at
`first + k1`, and the two traces concatenate to the contiguous in-order
prefix `range' first (k1 + k2)` — no datagram is dropped or reordered by
the pause/resume transition. -/
theorem C5_batch_pause_resume_in_order (eff : Nat → stream_base → stream_base)
    (s s2 : stream_base) (first last : Nat) (h : first ≤ last) :
    ∃ k1,
      (process_packets eff s first last).processed = List.range' first k1 ∧
      first + k1 ≤ last ∧
      (((process_packets eff s first last).first = first + k1 ∧
        (process_packets eff s first last).last = last ∧
        ((process_packets eff s first last).first <
            (process_packets eff s first last).last →
          (process_packets eff s first last).s.is_paused = true) ∧
        ∃ k2,
          (process_packets eff s2 (first + k1) last).processed =
            List.range' (first + k1) k2 ∧
          first + k1 + k2 ≤ last ∧
          (process_packets eff s first last).processed ++
              (process_packets eff s2 (first + k1) last).processed =
            List.range' first (k1 + k2)) ∨
       ((process_packets eff s first last).first = 0 ∧
        (process_packets eff s first last).last = 0 ∧
        (process_packets eff s first last).s.is_stopped = true)) := by
  obtain ⟨k1, hp1, hk1, hout, hpau⟩ := process_packets_spec eff s first last h
  rcases hout with ⟨hf, hl⟩ | hstop
  · obtain ⟨k2, hp2, hk2, _, _⟩ :=
      process_packets_spec eff s2 (first + k1) last (by omega)
    refine ⟨k1, hp1, hk1, Or.inl ⟨hf, hl, hpau, k2, hp2, hk2, ?_⟩⟩
    rw [hp1, hp2, Nat.add_comm k1 k2]
    simp
  · exact ⟨k1, hp1, hk1, Or.inr hstop⟩

/-- Witness for C5: a two-datagram batch against a running stream with an
effect that never stops or pauses it. -/
theorem C5_witness :
    ∃ k1,
      (process_packets (fun _ st => st) (stream_base.mk [none] 0 [] false)
        0 2).processed = List.range' 0 k1 ∧
      0 + k1 ≤ 2 ∧
      (((process_packets (fun _ st => st) (stream_base.mk [none] 0 [] false)
          0 2).first = 0 + k1 ∧
        (process_packets (fun _ st => st) (stream_base.mk [none] 0 [] false)
          0 2).last = 2 ∧
        ((process_packets (fun _ st => st) (stream_base.mk [none] 0 [] false)
            0 2).first <
          (process_packets (fun _ st => st) (stream_base.mk [none] 0 [] false)
            0 2).last →
          (process_packets (fun _ st => st) (stream_base.mk [none] 0 [] false)
            0 2).s.is_paused = true) ∧
        ∃ k2,
          (process_packets (fun _ st => st) (stream_base.mk [none] 0 [] false)
            (0 + k1) 2).processed = List.range' (0 + k1) k2 ∧
          0 + k1 + k2 ≤ 2 ∧
          (process_packets (fun _ st => st) (stream_base.mk [none] 0 [] false)
              0 2).processed ++
            (process_packets (fun _ st => st) (stream_base.mk [none] 0 [] false)
              (0 + k1) 2).processed = List.range' 0 (k1 + k2)) ∨
       ((process_packets (fun _ st => st) (stream_base.mk [none] 0 [] false)
          0 2).first = 0 ∧
        (process_packets (fun _ st => st) (stream_base.mk [none] 0 [] false)
          0 2).last = 0 ∧
        (process_packets (fun _ st => st) (stream_base.mk [none] 0 [] false)
          0 2).s.is_stopped = true)) :=
  C5_batch_pause_resume_in_order (fun _ st => st)
    (stream_base.mk [none] 0 [] false) (stream_base.mk [none] 0 [] false)
    0 2 (by decide)
